import Mathlib

/-! # kvm-operator: the deployment update gate, the namespace reconciler and the resource set

A shallow embedding of

* `service/controller/v12/resource/deployment/update.go`
  (`ApplyUpdateChange`, `newUpdateChange`),
* `service/controller/v3/resource/namespace/current.go` (`GetCurrentState`),
* `service/controller/v3/resource_set.go` (`NewResourceSet` with its two closures),
* `service/controller/v6/version_bundle.go` (`VersionBundle`),
* `service/controller/v4/resource/deployment/worker_deployment.go`
  (`newWorkerDeployments`).

Conventions of the embedding.

* A reconciler operation returning `(interface{}, error)` becomes a function returning a
  pair whose second component is `Option Error` (`none` is the nil error).  The pair is
  kept, rather than a sum, because the code states what value accompanies an error.
  Constructors and helpers, whose value is never read next to an error, return
  `Except Error _`.
* A Go `interface{}` value is an element of `Untyped`, which records the dynamic type.
* The pass context carries two flags; a function that sets one returns the new context.
* Calls to the logger do not influence control flow or results and are left out.
* `microerror.Mask` keeps the cause of an error and is the identity here.
* `int32` replica counters are integers; the code only compares them.
-/

set_option autoImplicit false

namespace KvmOperator

/-! ## Errors -/

/-- The error causes that the embedded code distinguishes. -/
inductive Error where
  /-- The package level `wrongTypeError` raised by failed down-casts. -/
  | wrongTypeError
  /-- The package level `notFoundError` of the deployment resource. -/
  | notFoundError
  /-- The package level `invalidConfigError`. -/
  | invalidConfigError
  /-- A Kubernetes API status error with reason `NotFound`. -/
  | apiNotFound
  /-- Any other failure, identified by its message. -/
  | other (msg : String)
  deriving DecidableEq, Repr

/-- The deployment package's matcher `IsNotFound`: the cause is `notFoundError`. -/
def IsNotFound (err : Error) : Bool :=
  match err with
  | .notFoundError => true
  | _ => false

/-- The matcher `apierrors.IsNotFound` of the Kubernetes client library. -/
def apierrors.IsNotFound (err : Error) : Bool :=
  match err with
  | .apiNotFound => true
  | _ => false

/-! ## Kubernetes objects -/

/-- One container of a pod template, reduced to its name and image. -/
structure Container where
  Name : String
  Image : String
  deriving DecidableEq, Repr

/-- The counters of `DeploymentStatus` read by the update gate. -/
structure DeploymentStatus where
  AvailableReplicas : Int
  ReadyReplicas : Int
  Replicas : Int
  UpdatedReplicas : Int
  deriving DecidableEq, Repr

/-- A `v1beta1.Deployment`: its name, annotations, replica count, pod template and status. -/
structure Deployment where
  Name : String
  Annotations : List (String × String)
  Replicas : Int
  Containers : List Container
  Status : DeploymentStatus
  deriving DecidableEq, Repr

/-- The status of an `apiv1.Namespace`. -/
structure NamespaceStatus where
  Phase : String
  deriving DecidableEq, Repr

/-- An `apiv1.Namespace`. -/
structure Namespace where
  Name : String
  Status : NamespaceStatus
  deriving DecidableEq, Repr

/-! ## The cluster specification -/

/-- A worker node of `Spec.Cluster.Workers`. -/
structure ClusterNode where
  ID : String
  deriving DecidableEq, Repr

/-- The part `Spec.Cluster` of a `KVMConfig`. -/
structure ClusterSpec where
  ID : String
  Customer : String
  Workers : List ClusterNode
  deriving DecidableEq, Repr

/-- The part `Spec.VersionBundle` of a `KVMConfig`. -/
structure VersionBundleSpec where
  Version : String
  deriving DecidableEq, Repr

/-- The capabilities of a node in `Spec.KVM.Workers`: the number of CPUs and the memory.
The disk size, a floating point number that is only formatted into an environment
variable, is left out. -/
structure KVMNode where
  CPUs : Int
  Memory : String
  deriving DecidableEq, Repr

/-- The part `Spec.KVM` of a `KVMConfig`. -/
structure KVMSpec where
  Workers : List KVMNode
  deriving DecidableEq, Repr

/-- The part `Spec` of a `KVMConfig`. -/
structure KVMConfigSpec where
  Cluster : ClusterSpec
  VersionBundle : VersionBundleSpec
  KVM : KVMSpec
  deriving DecidableEq, Repr

/-- The custom object `v1alpha1.KVMConfig`. -/
structure KVMConfig where
  Spec : KVMConfigSpec
  deriving DecidableEq, Repr

/-! ## Untyped values -/

/-- A Go `interface{}` value together with its dynamic type. -/
inductive Untyped where
  /-- The nil interface. -/
  | nil
  /-- A non-nil `*v1alpha1.KVMConfig`. -/
  | kvmConfig (customObject : KVMConfig)
  /-- A `[]*v1beta1.Deployment`. -/
  | deployments (ds : List Deployment)
  /-- A `*apiv1.Namespace`; `none` is the nil pointer. -/
  | namespacePtr (ns : Option Namespace)
  /-- A value of any other dynamic type. -/
  | other
  deriving DecidableEq, Repr

/-- Modelled from the spec: `key.ToCustomObject` is absent from the sources.  The untyped
object handed to a reconciler is down-cast to the cluster specification (section 9); any
other value is a `wrongTypeError`. -/
def key.ToCustomObject (v : Untyped) : Except Error KVMConfig :=
  match v with
  | .kvmConfig customObject => .ok customObject
  | _ => .error .wrongTypeError

/-- Modelled from the spec: `key.ClusterNamespace` is absent from the sources.  The
namespace of a cluster is named after the identity recorded in its specification
(section 3). -/
def key.ClusterNamespace (customObject : KVMConfig) : String :=
  customObject.Spec.Cluster.ID

/-- Modelled from the spec: `key.VersionBundleVersion` is absent from the sources.  It
reads the version-bundle version recorded in the cluster specification (section 3). -/
def key.VersionBundleVersion (customObject : KVMConfig) : String :=
  customObject.Spec.VersionBundle.Version

/-- Modelled from the spec: `toDeployments` is absent from the sources.  The untyped state
is down-cast to the list of deployments (section 9); an absent state (nil) is the empty
list, since every list of a patch may be empty (section 3); any other value is a
`wrongTypeError`. -/
def toDeployments (v : Untyped) : Except Error (List Deployment) :=
  match v with
  | .nil => .ok []
  | .deployments ds => .ok ds
  | _ => .error .wrongTypeError

/-! ## The pass context -/

/-- The two pass-scoped flags carried by the `context.Context` of a reconciliation. -/
structure Ctx where
  updateAllowed : Bool
  canceled : Bool
  deriving DecidableEq, Repr

/-- The library function `updateallowedcontext.IsUpdateAllowed`. -/
def updateallowedcontext.IsUpdateAllowed (ctx : Ctx) : Bool :=
  ctx.updateAllowed

/-- The library function `updateallowedcontext.SetUpdateAllowed`. -/
def updateallowedcontext.SetUpdateAllowed (ctx : Ctx) : Ctx :=
  { ctx with updateAllowed := true }

/-- The library function `reconciliationcanceledcontext.IsCanceled`. -/
def reconciliationcanceledcontext.IsCanceled (ctx : Ctx) : Bool :=
  ctx.canceled

/-- The library function `reconciliationcanceledcontext.SetCanceled`. -/
def reconciliationcanceledcontext.SetCanceled (ctx : Ctx) : Ctx :=
  { ctx with canceled := true }

/-! ## The update gate of the deployment resource -/

/-- Modelled from the spec: `allNumbersEqual` is absent from the sources.  The stability
check requires `availableCount == readyCount == desiredCount == updatedCount`
(section 4.2, step 1). -/
def allNumbersEqual (a b c d : Int) : Bool :=
  decide (a = b) && decide (b = c) && decide (c = d)

/-- Modelled from the spec: `getDeploymentByName` is absent from the sources.  It locates
the object of the list with the given name (section 4.2, step 2) and reports
`notFoundError` when there is none. -/
def getDeploymentByName (list : List Deployment) (name : String) :
    Except Error Deployment :=
  match list with
  | [] => .error .notFoundError
  | l :: rest => if l.Name = name then .ok l else getDeploymentByName rest name

/-- The value of `allReplicasUp` computed for one deployment in `newUpdateChange`. -/
def allReplicasUp (d : Deployment) : Bool :=
  allNumbersEqual d.Status.AvailableReplicas d.Status.ReadyReplicas d.Status.Replicas
    d.Status.UpdatedReplicas

/-- The first loop of `newUpdateChange`: `true` when it leaves the function early because
some current deployment does not have all replicas up. -/
def anyReplicasDown : List Deployment → Bool
  | [] => false
  | d :: rest => if !allReplicasUp d then true else anyReplicasDown rest

/-- The second loop of `newUpdateChange`, with the `return nil, nil` that follows it.
`isDeploymentModified` is the comparison of the deployment package, which is absent from
the sources and therefore a parameter. -/
def selectUpdate (isDeploymentModified : Deployment → Deployment → Bool)
    (desiredDeployments : List Deployment) : List Deployment → Untyped × Option Error
  | [] => (.nil, none)
  | currentDeployment :: rest =>
    match getDeploymentByName desiredDeployments currentDeployment.Name with
    | .error err =>
      if IsNotFound err then
        selectUpdate isDeploymentModified desiredDeployments rest
      else
        (.nil, some err)
    | .ok desiredDeployment =>
      if !isDeploymentModified desiredDeployment currentDeployment then
        selectUpdate isDeploymentModified desiredDeployments rest
      else
        (.deployments [desiredDeployment], none)

/-- The function `Resource.newUpdateChange` of the deployment resource. -/
def newUpdateChange (isDeploymentModified : Deployment → Deployment → Bool) (ctx : Ctx)
    (_obj currentState desiredState : Untyped) : Untyped × Option Error :=
  match toDeployments currentState with
  | .error err => (.nil, some err)
  | .ok currentDeployments =>
    match toDeployments desiredState with
    | .error err => (.nil, some err)
    | .ok desiredDeployments =>
      if updateallowedcontext.IsUpdateAllowed ctx then
        if anyReplicasDown currentDeployments then
          (.nil, none)
        else
          selectUpdate isDeploymentModified desiredDeployments currentDeployments
      else
        (.nil, none)

/-! ## Applying an update -/

/-- One call of `Extensions().Deployments(namespace).Update(deployment)`. -/
structure UpdateCall where
  Namespace : String
  Deployment : Deployment
  deriving DecidableEq, Repr

/-- The Kubernetes client as far as the embedded code calls it: each field is the answer
of the API to one kind of call. -/
structure K8sClient where
  /-- The call `CoreV1().Namespaces().Get(name, options)`. -/
  GetNamespace : String → Except Error Namespace
  /-- The call `Extensions().Deployments(namespace).Update(deployment)`. -/
  UpdateDeployment : String → Deployment → Except Error Deployment

/-- The loop of `ApplyUpdateChange` over the deployments to update.  The result lists the
`Update` calls issued, in order, and carries the error that ended the loop, if any. -/
def applyUpdates (k8sClient : K8sClient) (ns : String) :
    List Deployment → List UpdateCall × Option Error
  | [] => ([], none)
  | deployment :: rest =>
    match k8sClient.UpdateDeployment ns deployment with
    | .error err => ([⟨ns, deployment⟩], some err)
    | .ok _ =>
      ((⟨ns, deployment⟩ : UpdateCall) :: (applyUpdates k8sClient ns rest).1,
        (applyUpdates k8sClient ns rest).2)

/-- The function `Resource.ApplyUpdateChange` of the deployment resource: the `Update`
calls it issues against the API and the error it returns. -/
def ApplyUpdateChange (k8sClient : K8sClient) (_ctx : Ctx) (obj updateChange : Untyped) :
    List UpdateCall × Option Error :=
  match key.ToCustomObject obj with
  | .error err => ([], some err)
  | .ok customObject =>
    match toDeployments updateChange with
    | .error err => ([], some err)
    | .ok deploymentsToUpdate =>
      if deploymentsToUpdate.length ≠ 0 then
        applyUpdates k8sClient (key.ClusterNamespace customObject) deploymentsToUpdate
      else
        ([], none)

/-! ## The current state of the namespace resource -/

/-- The second half of `GetCurrentState`, entered with the looked-up `namespace` pointer:
the cancellation of the reconciliation for a terminating namespace. -/
def cancelIfTerminating (ctx : Ctx) (ns : Option Namespace) : Ctx × Untyped × Option Error :=
  match ns with
  | some found =>
    if found.Status.Phase = "Terminating" then
      (reconciliationcanceledcontext.SetCanceled ctx, .nil, none)
    else
      (ctx, .namespacePtr ns, none)
  | none => (ctx, .namespacePtr ns, none)

/-- The function `Resource.GetCurrentState` of the namespace resource: the pass context
after the call, the returned state and the returned error. -/
def GetCurrentState (k8sClient : K8sClient) (ctx : Ctx) (obj : Untyped) :
    Ctx × Untyped × Option Error :=
  match key.ToCustomObject obj with
  | .error err => (ctx, .nil, some err)
  | .ok customObject =>
    match k8sClient.GetNamespace (key.ClusterNamespace customObject) with
    | .error err =>
      if apierrors.IsNotFound err then
        cancelIfTerminating ctx none
      else
        (ctx, .nil, some err)
    | .ok manifest => cancelIfTerminating ctx (some manifest)

/-! ## The version bundle -/

/-- The kinds of changelog entries of the `versionbundle` library. -/
inductive Kind where
  | KindAdded
  | KindChanged
  | KindDeprecated
  | KindFixed
  | KindRemoved
  | KindSecurity
  deriving DecidableEq, Repr

/-- A `versionbundle.Changelog`. -/
structure Changelog where
  Component : String
  Description : String
  Kind : Kind
  deriving DecidableEq, Repr

/-- A `versionbundle.Component`. -/
structure Component where
  Name : String
  Version : String
  deriving DecidableEq, Repr

/-- A `versionbundle.Bundle`. -/
structure Bundle where
  Changelogs : List Changelog
  Components : List Component
  Name : String
  Version : String
  deriving DecidableEq, Repr

/-- The function `VersionBundle` of `v6/version_bundle.go`. -/
def VersionBundle : Bundle where
  Changelogs := [
    ⟨"kvm-node-controller", "Updated KVM node controller with pod status bugfix.",
      .KindChanged⟩,
    ⟨"Calico", "Updated to 3.0.2.", .KindChanged⟩,
    ⟨"kubelet",
      "Tune kubelet flags for protecting key units (kubelet and container runtime) from workload overloads.",
      .KindChanged⟩,
    ⟨"etcd", "Updated to 3.3.1.", .KindChanged⟩,
    ⟨"qemu", "Fixed formula for calculating qemu memory overhead.", .KindFixed⟩,
    ⟨"monitoring", "Added configuration for monitoring endpoint IP addresses.",
      .KindAdded⟩]
  Components := [
    ⟨"calico", "3.0.2"⟩,
    ⟨"containerlinux", "1576.5.0"⟩,
    ⟨"docker", "17.09.0"⟩,
    ⟨"etcd", "3.3.1"⟩,
    ⟨"coredns", "1.0.5"⟩,
    ⟨"kubernetes", "1.9.2"⟩,
    ⟨"nginx-ingress-controller", "0.10.2"⟩]
  Name := "kvm-operator"
  Version := "2.0.1"

/-! ## The resource set -/

/-- The constant `ResourceRetries`. -/
def ResourceRetries : Nat := 3

/-- An implementation of `certs.Interface`, identified by a number. -/
structure CertsSearcher where
  ident : Nat
  deriving DecidableEq, Repr

/-- An implementation of `micrologger.Logger`, identified by a number. -/
structure Logger where
  ident : Nat
  deriving DecidableEq, Repr

/-- An implementation of `randomkeys.Interface`, identified by a number. -/
structure RandomkeysSearcher where
  ident : Nat
  deriving DecidableEq, Repr

/-- The struct `ResourceSetConfig`; an interface field is `none` when it is nil. -/
structure ResourceSetConfig where
  CertsSearcher : Option CertsSearcher
  K8sClient : Option K8sClient
  Logger : Option Logger
  RandomkeysSearcher : Option RandomkeysSearcher
  GuestUpdateEnabled : Bool
  Name : String

/-- A `cloudconfig.CloudConfig`, built from the configuration given to `cloudconfig.New`. -/
structure CloudConfig where
  Logger : Option Logger
  deriving DecidableEq, Repr

/-- The seven resource packages imported by `resource_set.go`. -/
inductive Package where
  | namespacePkg
  | serviceaccountPkg
  | configmapPkg
  | deploymentPkg
  | ingressPkg
  | pvcPkg
  | servicePkg
  deriving DecidableEq, Repr

/-- The `Config` struct of a resource package, with the fields that `NewResourceSet`
assigns in any of them. -/
structure OpsConfig where
  CertSearcher : Option CertsSearcher
  CloudConfig : Option CloudConfig
  K8sClient : Option K8sClient
  KeyWatcher : Option RandomkeysSearcher
  Logger : Option Logger

/-- The function `DefaultConfig` of a resource package: every dependency is nil. -/
def DefaultConfig : OpsConfig :=
  ⟨none, none, none, none, none⟩

/-- The `controller.CRUDResourceOps` built by the function `New` of a resource package. -/
structure Ops where
  Package : Package
  Config : OpsConfig

/-- The back-off policies built in `NewResourceSet`. -/
inductive BackOff where
  /-- The value of `backoff.NewExponentialBackOff()`. -/
  | exponential
  /-- The value of `backoff.WithMaxTries(b, max)`. -/
  | withMaxTries (b : BackOff) (max : Nat)
  deriving DecidableEq, Repr

/-- A `controller.Resource`: a CRUD resource or a decorator around a resource. -/
inductive Resource where
  /-- The value of `controller.NewCRUDResource` for a logger and the operations. -/
  | crud (logger : Option Logger) (ops : Ops)
  /-- The retry decorator around a resource. -/
  | retry (backOff : BackOff) (logger : Option Logger) (resource : Resource)
  /-- The metrics decorator around a resource. -/
  | metrics (name : String) (resource : Resource)

/-- The resource package whose operations a resource finally runs. -/
def Resource.package : Resource → Package
  | .crud _ ops => ops.Package
  | .retry _ _ r => r.package
  | .metrics _ r => r.package

/-- The struct `retryresource.WrapConfig`. -/
structure RetryWrapConfig where
  BackOffFactory : Unit → BackOff
  Logger : Option Logger

/-- The struct `metricsresource.WrapConfig`. -/
structure MetricsWrapConfig where
  Name : String

/-- The struct `controller.ResourceSet`, holding what `controller.ResourceSetConfig`
hands over. -/
structure ResourceSet where
  Handles : Untyped → Bool
  InitCtx : Ctx → Untyped → Ctx × Option Error
  Logger : Option Logger
  Resources : List Resource

/-- The validations of the constructors that `NewResourceSet` calls and that are not among
the sources.  Each field tells whether a constructor rejects its configuration, and with
which error. -/
structure Validation where
  /-- The validation of `cloudconfig.New`. -/
  cloudconfigNew : Option Logger → Option Error
  /-- The validation of the function `New` of a resource package. -/
  packageNew : Package → OpsConfig → Option Error
  /-- The validation of `controller.NewCRUDResource`. -/
  crudResourceNew : Option Logger → Ops → Option Error
  /-- The validation of `retryresource.New`. -/
  retryResourceNew : BackOff → Option Logger → Resource → Option Error
  /-- The validation of `metricsresource.New`. -/
  metricsResourceNew : String → Resource → Option Error
  /-- The validation of `controller.NewResourceSet`. -/
  resourceSetNew : Option Logger → List Resource → Option Error

/-- Turns the verdict of a validation into a result. -/
def validated {α : Type} (verdict : Option Error) (value : α) : Except Error α :=
  match verdict with
  | some err => .error err
  | none => .ok value

/-- Modelled from the spec: `cloudconfig.New` is absent from the sources.  It builds the
cloud config from its configuration or rejects the configuration. -/
def cloudconfig.New (v : Validation) (logger : Option Logger) : Except Error CloudConfig :=
  validated (v.cloudconfigNew logger) ⟨logger⟩

/-- Modelled from the spec: the functions `New` of the resource packages are absent from
the sources.  Each builds the reconciler of its kind (section 4.1) from its configuration
or rejects the configuration. -/
def Package.New (v : Validation) (pkg : Package) (c : OpsConfig) : Except Error Ops :=
  validated (v.packageNew pkg c) ⟨pkg, c⟩

/-- The function `toCRUDResource`, with the library constructor
`controller.NewCRUDResource` that it calls. -/
def toCRUDResource (v : Validation) (logger : Option Logger) (ops : Ops) :
    Except Error Resource :=
  validated (v.crudResourceNew logger ops) (.crud logger ops)

/-- Modelled from the spec: `retryresource.Wrap` belongs to the operatorkit library.  It
composes the retry decorator around every resource of the list (section 4.5), one after
the other, and fails when a decorator rejects its configuration. -/
def retryresource.Wrap (v : Validation) (resources : List Resource)
    (config : RetryWrapConfig) : Except Error (List Resource) :=
  match resources with
  | [] => .ok []
  | r :: rest =>
    match validated (v.retryResourceNew (config.BackOffFactory ()) config.Logger r)
        (Resource.retry (config.BackOffFactory ()) config.Logger r) with
    | .error err => .error err
    | .ok retryResource =>
      match retryresource.Wrap v rest config with
      | .error err => .error err
      | .ok wrapped => .ok (retryResource :: wrapped)

/-- Modelled from the spec: `metricsresource.Wrap` belongs to the operatorkit library.  It
composes the metrics decorator around every resource of the list (section 4.5), one after
the other, and fails when a decorator rejects its configuration. -/
def metricsresource.Wrap (v : Validation) (resources : List Resource)
    (config : MetricsWrapConfig) : Except Error (List Resource) :=
  match resources with
  | [] => .ok []
  | r :: rest =>
    match validated (v.metricsResourceNew config.Name r)
        (Resource.metrics config.Name r) with
    | .error err => .error err
    | .ok metricsResource =>
      match metricsresource.Wrap v rest config with
      | .error err => .error err
      | .ok wrapped => .ok (metricsResource :: wrapped)

/-- Modelled from the spec: `controller.NewResourceSet` belongs to the operatorkit library.
It keeps the applicability predicate, the context initializer, the logger and the ordered
resources of its configuration (section 2), or rejects the configuration. -/
def controller.NewResourceSet (v : Validation) (c : ResourceSet) : Except Error ResourceSet :=
  validated (v.resourceSetNew c.Logger c.Resources) c

/-- The closure `initCtxFunc` of `NewResourceSet`. -/
def initCtxFunc (config : ResourceSetConfig) (ctx : Ctx) (_obj : Untyped) :
    Ctx × Option Error :=
  if config.GuestUpdateEnabled then
    (updateallowedcontext.SetUpdateAllowed ctx, none)
  else
    (ctx, none)

/-- The closure `handlesFunc` of `NewResourceSet`.  The bundle is the value of the
function `VersionBundle` of the package the resource set belongs to. -/
def handlesFunc (bundle : Bundle) (obj : Untyped) : Bool :=
  match key.ToCustomObject obj with
  | .error _ => false
  | .ok kvmConfig =>
    if key.VersionBundleVersion kvmConfig = bundle.Version then
      true
    else
      false

/-- The function `NewResourceSet`.  The bundle is the value of the function
`VersionBundle` of the package the resource set belongs to. -/
def NewResourceSet (v : Validation) (bundle : Bundle) (config : ResourceSetConfig) :
    Except Error ResourceSet := do
  if config.CertsSearcher.isNone then
    throw Error.invalidConfigError
  if config.K8sClient.isNone then
    throw Error.invalidConfigError
  if config.Logger.isNone then
    throw Error.invalidConfigError
  if config.RandomkeysSearcher.isNone then
    throw Error.invalidConfigError
  if config.Name = "" then
    throw Error.invalidConfigError
  let cloudConfig ← cloudconfig.New v config.Logger
  let namespaceResource ← do
    let c := { DefaultConfig with K8sClient := config.K8sClient, Logger := config.Logger }
    let ops ← Package.New v .namespacePkg c
    toCRUDResource v config.Logger ops
  let serviceAccountResource ← do
    let c := { DefaultConfig with K8sClient := config.K8sClient, Logger := config.Logger }
    let ops ← Package.New v .serviceaccountPkg c
    toCRUDResource v config.Logger ops
  let configMapResource ← do
    let c := { DefaultConfig with
      CertSearcher := config.CertsSearcher, CloudConfig := some cloudConfig,
      K8sClient := config.K8sClient, KeyWatcher := config.RandomkeysSearcher,
      Logger := config.Logger }
    let ops ← Package.New v .configmapPkg c
    toCRUDResource v config.Logger ops
  let deploymentResource ← do
    let c := { DefaultConfig with K8sClient := config.K8sClient, Logger := config.Logger }
    let ops ← Package.New v .deploymentPkg c
    toCRUDResource v config.Logger ops
  let ingressResource ← do
    let c := { DefaultConfig with K8sClient := config.K8sClient, Logger := config.Logger }
    let ops ← Package.New v .ingressPkg c
    toCRUDResource v config.Logger ops
  let pvcResource ← do
    let c := { DefaultConfig with K8sClient := config.K8sClient, Logger := config.Logger }
    let ops ← Package.New v .pvcPkg c
    toCRUDResource v config.Logger ops
  let serviceResource ← do
    let c := { DefaultConfig with K8sClient := config.K8sClient, Logger := config.Logger }
    let ops ← Package.New v .servicePkg c
    toCRUDResource v config.Logger ops
  let resources := [
    namespaceResource,
    serviceAccountResource,
    configMapResource,
    deploymentResource,
    ingressResource,
    pvcResource,
    serviceResource]
  let retryWrapConfig : RetryWrapConfig :=
    ⟨fun _ => BackOff.withMaxTries BackOff.exponential ResourceRetries, config.Logger⟩
  let resources ← retryresource.Wrap v resources retryWrapConfig
  let metricsWrapConfig : MetricsWrapConfig := ⟨config.Name⟩
  let resources ← metricsresource.Wrap v resources metricsWrapConfig
  controller.NewResourceSet v
    ⟨handlesFunc bundle, initCtxFunc config, config.Logger, resources⟩

/-! ## The retry decorator -/

/-- The run-time state of a back-off policy of the back-off library, which is not among
the sources: the exponential back-off with the number of times it was consulted, and the
wrapper `backOffTries` of `backoff.WithMaxTries` with its delegate, its `maxTries` and its
counter `numTries`. -/
inductive BackOffState where
  | exponentialBackOff (consulted : Nat)
  | backOffTries (delegate : BackOffState) (maxTries numTries : Nat)
  deriving DecidableEq, Repr

/-- The method `Reset` of a back-off policy, called when a retry starts: the counter
`numTries` is set to zero and the delegate is reset. -/
def BackOff.Reset : BackOff → BackOffState
  | .exponential => .exponentialBackOff 0
  | .withMaxTries b max => .backOffTries b.Reset max 0

/-- The method `NextBackOff` of a back-off policy, following the back-off library: the
first component is `true` when the answer is `Stop`, the second is the state afterwards.
The exponential back-off stops once its maximal elapsed time has passed, which the clock
`expired` tells for each consultation.  The wrapper `backOffTries` with a positive
`maxTries` stops when `maxTries <= numTries`; otherwise it increments `numTries` and asks
its delegate.  It counts the back-offs handed out, not the attempts. -/
def BackOffState.NextBackOff (expired : Nat → Bool) : BackOffState → Bool × BackOffState
  | .exponentialBackOff consulted => (expired consulted, .exponentialBackOff (consulted + 1))
  | .backOffTries delegate maxTries numTries =>
    if 0 < maxTries then
      if maxTries ≤ numTries then
        (true, .backOffTries delegate maxTries numTries)
      else
        ((delegate.NextBackOff expired).1,
          .backOffTries (delegate.NextBackOff expired).2 maxTries (numTries + 1))
    else
      ((delegate.NextBackOff expired).1,
        .backOffTries (delegate.NextBackOff expired).2 maxTries numTries)

/-- The loop of `backoff.RetryNotify`, following the back-off library: the operation is
run; when it fails the policy is asked for the next back-off, and the loop returns the
error on `Stop` and runs the operation again otherwise.  `run made` runs the operation
when the underlying operation has been called `made` times, and gives the number of calls
afterwards with the error; the result is `none` when the fuel does not suffice. -/
def retryNotifyLoop (expired : Nat → Bool) (run : Nat → Option (Nat × Option Error)) :
    Nat → BackOffState → Nat → Option (Nat × Option Error)
  | 0, _, _ => none
  | fuel + 1, state, made =>
    match run made with
    | none => none
    | some (made', none) => some (made', none)
    | some (made', some err) =>
      if (state.NextBackOff expired).1 then
        some (made', some err)
      else
        retryNotifyLoop expired run fuel (state.NextBackOff expired).2 made'

/-- One call of a reconciler operation on a resource.  `operation i` is the outcome of the
call with index `i` of the operation of the underlying CRUD resource, and `made` is the
number of such calls so far; the result is the number of calls afterwards with the error
returned.  The CRUD resource calls the operation once; the metrics decorator calls its
resource once and returns what it returns; the retry decorator resets its back-off and
runs `backoff.RetryNotify` around its resource. -/
def Resource.run (expired : Nat → Bool) (operation : Nat → Option Error) (fuel : Nat) :
    Resource → Nat → Option (Nat × Option Error)
  | .crud _ _, made => some (made + 1, operation made)
  | .metrics _ r, made => Resource.run expired operation fuel r made
  | .retry backOff _ r, made =>
    retryNotifyLoop expired (fun m => Resource.run expired operation fuel r m) fuel
      backOff.Reset made

/-! ## The worker deployments -/

/-- A `resource.Quantity`, identified by its canonical text. -/
structure Quantity where
  Text : String
  deriving DecidableEq, Repr

/-- The constants and functions of the package `key` that `newWorkerDeployments` uses for
the modelled fields of a deployment.  The package is not among the sources, so they are
parameters. -/
structure WorkerKey where
  /-- The constant `key.WorkerID`. -/
  WorkerID : String
  /-- The constant `key.VersionBundleVersionAnnotation`. -/
  VersionBundleVersionAnnotation : String
  /-- The constant `key.K8SEndpointUpdaterDocker`. -/
  K8SEndpointUpdaterDocker : String
  /-- The constant `key.K8SKVMDockerImage`. -/
  K8SKVMDockerImage : String
  /-- The constant `key.K8SKVMHealthDocker`. -/
  K8SKVMHealthDocker : String
  /-- The function `key.DeploymentName`, applied to a role and a node identifier. -/
  DeploymentName : String → String → String
  /-- The function `key.CPUQuantity`. -/
  CPUQuantity : KVMNode → Except Error Quantity
  /-- The function `key.MemoryQuantity`. -/
  MemoryQuantity : KVMNode → Except Error Quantity

/-- The deployment literal built in the loop of `newWorkerDeployments` for one worker
node, at the granularity of `Deployment`: its name, its version annotation, its replica
count and the names and images of its three containers.  The status is the zero value. -/
def newWorkerDeployment (k : WorkerKey) (customObject : KVMConfig) (workerNode : ClusterNode)
    (replicas : Int) : Deployment where
  Name := k.DeploymentName k.WorkerID workerNode.ID
  Annotations := [(k.VersionBundleVersionAnnotation, key.VersionBundleVersion customObject)]
  Replicas := replicas
  Containers := [
    ⟨"k8s-endpoint-updater", k.K8SEndpointUpdaterDocker⟩,
    ⟨"k8s-kvm", k.K8SKVMDockerImage⟩,
    ⟨"k8s-kvm-health", k.K8SKVMHealthDocker⟩]
  Status := ⟨0, 0, 0, 0⟩

/-- The loop of `newWorkerDeployments` over the worker nodes that remain, entered with the
index `i` of the first of them and the deployments appended so far.  The result is `none`
when the index expression `customObject.Spec.KVM.Workers[i]` is out of range, which ends
the program; otherwise it is the pair that the function returns. -/
def newWorkerDeploymentsLoop (k : WorkerKey) (customObject : KVMConfig) (replicas : Int) :
    List ClusterNode → Nat → List Deployment → Option (List Deployment × Option Error)
  | [], _, deployments => some (deployments, none)
  | workerNode :: rest, i, deployments =>
    match customObject.Spec.KVM.Workers[i]? with
    | none => none
    | some capabilities =>
      match k.CPUQuantity capabilities with
      | .error err => some ([], some err)
      | .ok _cpuQuantity =>
        match k.MemoryQuantity capabilities with
        | .error err => some ([], some err)
        | .ok _memoryQuantity =>
          newWorkerDeploymentsLoop k customObject replicas rest (i + 1)
            (deployments ++ [newWorkerDeployment k customObject workerNode replicas])

/-- The function `newWorkerDeployments`. -/
def newWorkerDeployments (k : WorkerKey) (customObject : KVMConfig) :
    Option (List Deployment × Option Error) :=
  newWorkerDeploymentsLoop k customObject 1 customObject.Spec.Cluster.Workers 0 []

/-! ## Sample data -/

/-- A worker deployment with the given name, container image and status counters
(available, ready, total, updated). -/
def worker (name image : String) (available ready replicas updated : Int) : Deployment :=
  ⟨name, [("version", "1.0.0")], 1, [⟨"k8s-kvm", image⟩],
    ⟨available, ready, replicas, updated⟩⟩

/-- A comparison of deployments for the examples: two deployments differ when their
annotations or their containers differ. -/
def templateDiffers (a b : Deployment) : Bool :=
  decide (a.Annotations ≠ b.Annotations) || decide (a.Containers ≠ b.Containers)

/-- A pass context in which updates are allowed. -/
def ctxUpdateAllowed : Ctx :=
  ⟨true, false⟩

/-- A pass context in which updates are not allowed. -/
def ctxUpdateForbidden : Ctx :=
  ⟨false, false⟩

/-- A cluster specification. -/
def sampleCluster (version : String) : KVMConfig :=
  ⟨⟨⟨"al9qy", "acme", []⟩, ⟨version⟩, ⟨[]⟩⟩⟩

/-- A Kubernetes client that answers every namespace lookup with the given result and
accepts every update. -/
def clientAnswering (answer : Except Error Namespace) : K8sClient :=
  ⟨fun _ => answer, fun _ deployment => .ok deployment⟩

/-- A validation that accepts every configuration. -/
def acceptAll : Validation :=
  ⟨fun _ => none, fun _ _ => none, fun _ _ => none, fun _ _ _ => none, fun _ _ => none,
    fun _ _ => none⟩

/-- A complete configuration of the resource set. -/
def sampleConfig (guestUpdateEnabled : Bool) : ResourceSetConfig :=
  ⟨some ⟨1⟩, some (clientAnswering (.error .apiNotFound)), some ⟨2⟩, some ⟨3⟩,
    guestUpdateEnabled, "kvm-operator"⟩

/-- The seven resource packages in the order in which `NewResourceSet` lists their
resources. -/
def resourceOrder : List Package :=
  [.namespacePkg, .serviceaccountPkg, .configmapPkg, .deploymentPkg, .ingressPkg, .pvcPkg,
    .servicePkg]

/-- A `key` package for the examples: a quantity of CPUs parses when the number is not
negative, a quantity of memory when the text is not empty. -/
def sampleKey : WorkerKey where
  WorkerID := "worker"
  VersionBundleVersionAnnotation := "giantswarm.io/version-bundle-version"
  K8SEndpointUpdaterDocker := "k8s-endpoint-updater"
  K8SKVMDockerImage := "k8s-kvm"
  K8SKVMHealthDocker := "k8s-kvm-health"
  DeploymentName := fun role nodeID => role ++ "-" ++ nodeID
  CPUQuantity := fun n => if n.CPUs < 0 then .error (.other "cpu") else .ok ⟨"cpu"⟩
  MemoryQuantity := fun n => if n.Memory = "" then .error (.other "memory") else .ok ⟨n.Memory⟩

/-- A cluster specification with the given worker nodes and worker capabilities. -/
def sampleWorkerCluster (nodes : List ClusterNode) (capabilities : List KVMNode) : KVMConfig :=
  ⟨⟨⟨"al9qy", "acme", nodes⟩, ⟨"2.0.1"⟩, ⟨capabilities⟩⟩⟩

/-- A clock under which the maximal elapsed time of the exponential back-off never
passes. -/
def neverExpired : Nat → Bool :=
  fun _ => false

/-- An operation that fails with a conflict on every call. -/
def alwaysConflict : Nat → Option Error :=
  fun _ => some (.other "conflict")

/-- An operation that fails with a conflict on its first `n` calls and succeeds after. -/
def conflictsThenSucceeds (n : Nat) : Nat → Option Error :=
  fun i => if i < n then some (.other "conflict") else none

/-! ## Facts about the helpers of the update gate -/

theorem allReplicasUp_eq_true_iff (d : Deployment) :
    allReplicasUp d = true ↔
      (d.Status.AvailableReplicas = d.Status.ReadyReplicas ∧
        d.Status.ReadyReplicas = d.Status.Replicas ∧
        d.Status.Replicas = d.Status.UpdatedReplicas) := by
  simp [allReplicasUp, allNumbersEqual, and_assoc]

theorem anyReplicasDown_eq_false_iff (l : List Deployment) :
    anyReplicasDown l = false ↔ ∀ d ∈ l, allReplicasUp d = true := by
  induction l with
  | nil => simp [anyReplicasDown]
  | cons x xs ih =>
    cases hx : allReplicasUp x <;> simp [anyReplicasDown, hx, ih]

theorem anyReplicasDown_eq_true_iff (l : List Deployment) :
    anyReplicasDown l = true ↔ ∃ d ∈ l, allReplicasUp d = false := by
  induction l with
  | nil => simp [anyReplicasDown]
  | cons x xs ih =>
    cases hx : allReplicasUp x <;> simp [anyReplicasDown, hx, ih]

theorem getDeploymentByName_ok {list : List Deployment} {name : String} {d : Deployment}
    (h : getDeploymentByName list name = .ok d) : d ∈ list ∧ d.Name = name := by
  induction list with
  | nil => simp [getDeploymentByName] at h
  | cons x xs ih =>
    unfold getDeploymentByName at h
    split at h
    · rename_i hx
      cases h
      exact ⟨List.mem_cons_self _ _, hx⟩
    · exact ⟨List.mem_cons_of_mem _ (ih h).1, (ih h).2⟩

theorem getDeploymentByName_error {list : List Deployment} {name : String} {err : Error}
    (h : getDeploymentByName list name = .error err) :
    err = .notFoundError ∧ ∀ d ∈ list, d.Name ≠ name := by
  induction list with
  | nil =>
    simp only [getDeploymentByName, Except.error.injEq] at h
    exact ⟨h.symm, by simp⟩
  | cons x xs ih =>
    unfold getDeploymentByName at h
    split at h
    · cases h
    · rename_i hx
      refine ⟨(ih h).1, ?_⟩
      intro d hd
      rcases List.mem_cons.1 hd with rfl | hd
      · exact hx
      · exact (ih h).2 d hd

theorem getDeploymentByName_of_no_match {list : List Deployment} {name : String}
    (h : ∀ d ∈ list, d.Name ≠ name) :
    getDeploymentByName list name = .error .notFoundError := by
  induction list with
  | nil => rfl
  | cons x xs ih =>
    unfold getDeploymentByName
    rw [if_neg (h x (List.mem_cons_self _ _))]
    exact ih (fun d hd => h d (List.mem_cons_of_mem _ hd))

/-- When names are unique in the list, the lookup finds exactly the member of that name. -/
theorem getDeploymentByName_ok_iff_of_nodup {list : List Deployment}
    (hnd : (list.map Deployment.Name).Nodup) (name : String) (d : Deployment) :
    getDeploymentByName list name = .ok d ↔ d ∈ list ∧ d.Name = name := by
  refine ⟨getDeploymentByName_ok, ?_⟩
  induction list with
  | nil => simp
  | cons x xs ih =>
    rintro ⟨hd, hname⟩
    rw [List.map_cons, List.nodup_cons] at hnd
    unfold getDeploymentByName
    rcases List.mem_cons.1 hd with rfl | hd
    · rw [if_pos hname]
    · have hx : x.Name ≠ name := by
        intro hx
        apply hnd.1
        rw [hx, ← hname]
        exact List.mem_map_of_mem _ hd
      rw [if_neg hx]
      exact ih hnd.2 ⟨hd, hname⟩

/-- The scan steps over a current deployment that has no desired counterpart. -/
theorem selectUpdate_cons_of_no_match (m : Deployment → Deployment → Bool)
    (desired : List Deployment) (c : Deployment) (rest : List Deployment)
    (h : ∀ d ∈ desired, d.Name ≠ c.Name) :
    selectUpdate m desired (c :: rest) = selectUpdate m desired rest := by
  rw [selectUpdate, getDeploymentByName_of_no_match h]
  simp [IsNotFound]

/-- The scan steps over a prefix none of whose members is reported as modified. -/
theorem selectUpdate_append_of_unmodified (m : Deployment → Deployment → Bool)
    (desired pre rest : List Deployment)
    (h : ∀ p ∈ pre, ∀ d, getDeploymentByName desired p.Name = .ok d → m d p = false) :
    selectUpdate m desired (pre ++ rest) = selectUpdate m desired rest := by
  induction pre with
  | nil => rfl
  | cons x xs ih =>
    have ih2 := ih (fun p hp => h p (List.mem_cons_of_mem _ hp))
    rw [List.cons_append, selectUpdate]
    cases hx : getDeploymentByName desired x.Name with
    | error err =>
      have := (getDeploymentByName_error hx).1
      subst this
      simpa [IsNotFound] using ih2
    | ok d =>
      have := h x (List.mem_cons_self _ _) d hx
      simpa [this] using ih2

/-- The scan returns either nothing or a single member of the desired list, never an
error. -/
theorem selectUpdate_shape (m : Deployment → Deployment → Bool)
    (desired current : List Deployment) :
    selectUpdate m desired current = (.nil, none) ∨
      ∃ d ∈ desired, selectUpdate m desired current = (.deployments [d], none) := by
  induction current with
  | nil => exact Or.inl rfl
  | cons x xs ih =>
    rw [selectUpdate]
    cases hx : getDeploymentByName desired x.Name with
    | error err =>
      have := (getDeploymentByName_error hx).1
      subst this
      simpa [IsNotFound] using ih
    | ok d =>
      cases hm : m d x
      · simpa [hm] using ih
      · exact Or.inr ⟨d, (getDeploymentByName_ok hx).1, by simp [hm]⟩

/-! ## The update gate -/

/-- C1: when at least one current deployment has its available, ready, total and updated
replica counts not all equal, `newUpdateChange` returns the nil update and no error,
whatever the pass context, the desired deployments and the comparison of deployments are,
and whether or not the unstable deployment has a desired counterpart. -/
theorem newUpdateChange_unstable_returns_nil (isDeploymentModified : Deployment → Deployment → Bool)
    (ctx : Ctx) (obj : Untyped) (current desired : List Deployment)
    (h : ∃ d ∈ current, ¬ (d.Status.AvailableReplicas = d.Status.ReadyReplicas ∧
      d.Status.ReadyReplicas = d.Status.Replicas ∧
      d.Status.Replicas = d.Status.UpdatedReplicas)) :
    newUpdateChange isDeploymentModified ctx obj (.deployments current)
      (.deployments desired) = (.nil, none) := by
  have hdown : anyReplicasDown current = true := by
    rw [anyReplicasDown_eq_true_iff]
    obtain ⟨d, hd, hne⟩ := h
    refine ⟨d, hd, ?_⟩
    rw [← allReplicasUp_eq_true_iff] at hne
    simpa using hne
  simp [newUpdateChange, toDeployments, hdown]

/-- Scenario 1 of the specification: of three current deployments the second has two ready
replicas out of three, and the desired image of the third differs; nothing is updated. -/
theorem newUpdateChange_unstable_returns_nil_witness :
    (∃ d ∈ [worker "worker-1" "a" 1 1 1 1, worker "worker-2" "a" 2 2 3 3,
        worker "worker-3" "a" 1 1 1 1],
      ¬ (d.Status.AvailableReplicas = d.Status.ReadyReplicas ∧
        d.Status.ReadyReplicas = d.Status.Replicas ∧
        d.Status.Replicas = d.Status.UpdatedReplicas)) ∧
    newUpdateChange templateDiffers ctxUpdateAllowed .nil
      (.deployments [worker "worker-1" "a" 1 1 1 1, worker "worker-2" "a" 2 2 3 3,
        worker "worker-3" "a" 1 1 1 1])
      (.deployments [worker "worker-1" "a" 0 0 0 0, worker "worker-2" "a" 0 0 0 0,
        worker "worker-3" "b" 0 0 0 0]) = (.nil, none) :=
  ⟨⟨worker "worker-2" "a" 2 2 3 3, by decide, by decide⟩,
    newUpdateChange_unstable_returns_nil templateDiffers ctxUpdateAllowed .nil _ _
      ⟨worker "worker-2" "a" 2 2 3 3, by decide, by decide⟩⟩

/-- C2: for every comparison of deployments, pass context, object, current state and
desired state, the update returned by `newUpdateChange` converts to a list of at most one
deployment. -/
theorem newUpdateChange_at_most_one (isDeploymentModified : Deployment → Deployment → Bool)
    (ctx : Ctx) (obj currentState desiredState : Untyped) :
    ∃ ds, toDeployments
        (newUpdateChange isDeploymentModified ctx obj currentState desiredState).1 = .ok ds ∧
      ds.length ≤ 1 := by
  unfold newUpdateChange
  cases toDeployments currentState with
  | error err => exact ⟨[], rfl, by simp⟩
  | ok current =>
    cases toDeployments desiredState with
    | error err => exact ⟨[], rfl, by simp⟩
    | ok desired =>
      dsimp only
      cases updateallowedcontext.IsUpdateAllowed ctx with
      | false => exact ⟨[], rfl, by simp⟩
      | true =>
        cases anyReplicasDown current with
        | true => exact ⟨[], rfl, by simp⟩
        | false =>
          rcases selectUpdate_shape isDeploymentModified desired current with h | ⟨d, _, h⟩
          · exact ⟨[], by simp [h, toDeployments], by simp⟩
          · exact ⟨[d], by simp [h, toDeployments], by simp⟩

/-- C3: when the pass context does not allow updates, `newUpdateChange` returns the nil
update and no error for all current and desired deployments, stable or not, modified or
not. -/
theorem newUpdateChange_not_allowed_returns_nil
    (isDeploymentModified : Deployment → Deployment → Bool)
    (ctx : Ctx) (obj : Untyped) (current desired : List Deployment)
    (h : updateallowedcontext.IsUpdateAllowed ctx = false) :
    newUpdateChange isDeploymentModified ctx obj (.deployments current)
      (.deployments desired) = (.nil, none) := by
  simp [newUpdateChange, toDeployments, h]

/-- Scenario 4 of the specification: all deployments are stable and the desired image of
`worker-2` differs, but updates are not allowed; nothing is updated. -/
theorem newUpdateChange_not_allowed_returns_nil_witness :
    updateallowedcontext.IsUpdateAllowed ctxUpdateForbidden = false ∧
    newUpdateChange templateDiffers ctxUpdateForbidden .nil
      (.deployments [worker "worker-1" "a" 1 1 1 1, worker "worker-2" "a" 1 1 1 1,
        worker "worker-3" "a" 1 1 1 1])
      (.deployments [worker "worker-1" "a" 0 0 0 0, worker "worker-2" "b" 0 0 0 0,
        worker "worker-3" "a" 0 0 0 0]) = (.nil, none) :=
  ⟨rfl, newUpdateChange_not_allowed_returns_nil templateDiffers ctxUpdateForbidden .nil _ _ rfl⟩

/-- C4: when updates are allowed, every current deployment has its four replica counts
equal, and `c` is the first current deployment whose same-named desired deployment `d`
(the one `getDeploymentByName` locates) is reported as modified, then `newUpdateChange`
returns exactly the list holding `d`, which is a member of the desired list carrying the
name of `c`.  The current deployments after `c` are arbitrary: they are not compared. -/
theorem newUpdateChange_selects_first_modified
    (isDeploymentModified : Deployment → Deployment → Bool)
    (ctx : Ctx) (obj : Untyped) (pre post desired : List Deployment) (c d : Deployment)
    (hallowed : updateallowedcontext.IsUpdateAllowed ctx = true)
    (hstable : ∀ x ∈ pre ++ c :: post,
      x.Status.AvailableReplicas = x.Status.ReadyReplicas ∧
      x.Status.ReadyReplicas = x.Status.Replicas ∧
      x.Status.Replicas = x.Status.UpdatedReplicas)
    (hpre : ∀ p ∈ pre, ∀ e, getDeploymentByName desired p.Name = .ok e →
      isDeploymentModified e p = false)
    (hfound : getDeploymentByName desired c.Name = .ok d)
    (hmodified : isDeploymentModified d c = true) :
    newUpdateChange isDeploymentModified ctx obj (.deployments (pre ++ c :: post))
        (.deployments desired) = (.deployments [d], none) ∧
      d ∈ desired ∧ d.Name = c.Name := by
  have hup : anyReplicasDown (pre ++ c :: post) = false := by
    rw [anyReplicasDown_eq_false_iff]
    intro x hx
    exact (allReplicasUp_eq_true_iff x).2 (hstable x hx)
  refine ⟨?_, getDeploymentByName_ok hfound⟩
  simp only [newUpdateChange, toDeployments, hallowed, hup, if_true]
  rw [selectUpdate_append_of_unmodified isDeploymentModified desired pre (c :: post) hpre,
    selectUpdate, hfound]
  simp [hmodified]

/-- Scenario 2 of the specification: three stable deployments, only the desired image of
`worker-2` differs; the update is the desired `worker-2` alone, although `worker-3`, which
comes later, differs from its desired deployment as well. -/
theorem newUpdateChange_selects_first_modified_witness :
    newUpdateChange templateDiffers ctxUpdateAllowed .nil
        (.deployments ([worker "worker-1" "a" 1 1 1 1] ++
          worker "worker-2" "a" 1 1 1 1 :: [worker "worker-3" "a" 1 1 1 1]))
        (.deployments [worker "worker-1" "a" 0 0 0 0, worker "worker-2" "b" 0 0 0 0,
          worker "worker-3" "c" 0 0 0 0]) =
        (.deployments [worker "worker-2" "b" 0 0 0 0], none) ∧
      worker "worker-2" "b" 0 0 0 0 ∈
        [worker "worker-1" "a" 0 0 0 0, worker "worker-2" "b" 0 0 0 0,
          worker "worker-3" "c" 0 0 0 0] ∧
      (worker "worker-2" "b" 0 0 0 0).Name = (worker "worker-2" "a" 1 1 1 1).Name :=
  newUpdateChange_selects_first_modified templateDiffers ctxUpdateAllowed .nil
    [worker "worker-1" "a" 1 1 1 1] [worker "worker-3" "a" 1 1 1 1]
    [worker "worker-1" "a" 0 0 0 0, worker "worker-2" "b" 0 0 0 0,
      worker "worker-3" "c" 0 0 0 0]
    (worker "worker-2" "a" 1 1 1 1) (worker "worker-2" "b" 0 0 0 0)
    rfl (by decide)
    (by
      intro p hp e he
      rw [List.mem_singleton] at hp
      subst hp
      have hlookup : getDeploymentByName
          [worker "worker-1" "a" 0 0 0 0, worker "worker-2" "b" 0 0 0 0,
            worker "worker-3" "c" 0 0 0 0] (worker "worker-1" "a" 1 1 1 1).Name =
          .ok (worker "worker-1" "a" 0 0 0 0) := rfl
      rw [hlookup] at he
      cases he
      decide)
    rfl (by decide)

/-- C5: a current deployment `c` that has all replicas up and no same-named desired
deployment does not block the update computation: for every pass context, in particular
when updates are allowed and all current deployments are stable, `newUpdateChange` returns
no error and the same result as on the current list with `c` removed. -/
theorem newUpdateChange_skips_unmatched
    (isDeploymentModified : Deployment → Deployment → Bool)
    (ctx : Ctx) (obj : Untyped) (pre post desired : List Deployment) (c : Deployment)
    (hstable : c.Status.AvailableReplicas = c.Status.ReadyReplicas ∧
      c.Status.ReadyReplicas = c.Status.Replicas ∧
      c.Status.Replicas = c.Status.UpdatedReplicas)
    (hunmatched : ∀ d ∈ desired, d.Name ≠ c.Name) :
    newUpdateChange isDeploymentModified ctx obj (.deployments (pre ++ c :: post))
        (.deployments desired) =
      newUpdateChange isDeploymentModified ctx obj (.deployments (pre ++ post))
        (.deployments desired) ∧
    (newUpdateChange isDeploymentModified ctx obj (.deployments (pre ++ c :: post))
        (.deployments desired)).2 = none := by
  have hc : allReplicasUp c = true := (allReplicasUp_eq_true_iff c).2 hstable
  have hdown : ∀ l : List Deployment,
      anyReplicasDown (l ++ c :: post) = anyReplicasDown (l ++ post) := by
    intro l
    induction l with
    | nil => simp [anyReplicasDown, hc]
    | cons x xs ih => simp [anyReplicasDown, ih]
  have hsel : ∀ l : List Deployment,
      selectUpdate isDeploymentModified desired (l ++ c :: post) =
        selectUpdate isDeploymentModified desired (l ++ post) := by
    intro l
    induction l with
    | nil => exact selectUpdate_cons_of_no_match isDeploymentModified desired c post hunmatched
    | cons x xs ih =>
      rw [List.cons_append, List.cons_append, selectUpdate, selectUpdate, ih]
  have heq : newUpdateChange isDeploymentModified ctx obj (.deployments (pre ++ c :: post))
        (.deployments desired) =
      newUpdateChange isDeploymentModified ctx obj (.deployments (pre ++ post))
        (.deployments desired) := by
    simp only [newUpdateChange, toDeployments, hdown pre, hsel pre]
  refine ⟨heq, ?_⟩
  rw [heq]
  simp only [newUpdateChange, toDeployments]
  split
  · split
    · rfl
    · rcases selectUpdate_shape isDeploymentModified desired (pre ++ post) with h | ⟨d, _, h⟩ <;>
        rw [h]
  · rfl

/-- Scenario 3 of the specification: the current `worker-4` has no desired counterpart; the
scan goes on and selects the desired `worker-5`, as it does without `worker-4`. -/
theorem newUpdateChange_skips_unmatched_witness :
    (newUpdateChange templateDiffers ctxUpdateAllowed .nil
        (.deployments ([worker "worker-1" "a" 1 1 1 1] ++
          worker "worker-4" "a" 1 1 1 1 :: [worker "worker-5" "a" 1 1 1 1]))
        (.deployments [worker "worker-1" "a" 0 0 0 0, worker "worker-5" "b" 0 0 0 0]) =
      newUpdateChange templateDiffers ctxUpdateAllowed .nil
        (.deployments ([worker "worker-1" "a" 1 1 1 1] ++ [worker "worker-5" "a" 1 1 1 1]))
        (.deployments [worker "worker-1" "a" 0 0 0 0, worker "worker-5" "b" 0 0 0 0]) ∧
    (newUpdateChange templateDiffers ctxUpdateAllowed .nil
        (.deployments ([worker "worker-1" "a" 1 1 1 1] ++
          worker "worker-4" "a" 1 1 1 1 :: [worker "worker-5" "a" 1 1 1 1]))
        (.deployments [worker "worker-1" "a" 0 0 0 0, worker "worker-5" "b" 0 0 0 0])).2 =
      none) ∧
    newUpdateChange templateDiffers ctxUpdateAllowed .nil
        (.deployments ([worker "worker-1" "a" 1 1 1 1] ++
          worker "worker-4" "a" 1 1 1 1 :: [worker "worker-5" "a" 1 1 1 1]))
        (.deployments [worker "worker-1" "a" 0 0 0 0, worker "worker-5" "b" 0 0 0 0]) =
      (.deployments [worker "worker-5" "b" 0 0 0 0], none) :=
  ⟨newUpdateChange_skips_unmatched templateDiffers ctxUpdateAllowed .nil
      [worker "worker-1" "a" 1 1 1 1] [worker "worker-5" "a" 1 1 1 1]
      [worker "worker-1" "a" 0 0 0 0, worker "worker-5" "b" 0 0 0 0]
      (worker "worker-4" "a" 1 1 1 1) (by decide) (by decide),
    by decide⟩

/-! ## The namespace resource -/

/-- C6: when the lookup of the namespace of a custom object succeeds with a namespace in
phase "Terminating", `GetCurrentState` returns the nil object and no error and the pass
context is marked as canceled; when the lookup succeeds with a namespace in any other
phase, or fails with NotFound, the pass context is left as it was, and a namespace that was
found is returned unchanged. -/
theorem GetCurrentState_cancels_iff_terminating (k8sClient : K8sClient) (ctx : Ctx)
    (customObject : KVMConfig) :
    (∀ ns, k8sClient.GetNamespace (key.ClusterNamespace customObject) = .ok ns →
      ns.Status.Phase = "Terminating" →
      GetCurrentState k8sClient ctx (.kvmConfig customObject) =
        (reconciliationcanceledcontext.SetCanceled ctx, .nil, none) ∧
      reconciliationcanceledcontext.IsCanceled
        (GetCurrentState k8sClient ctx (.kvmConfig customObject)).1 = true) ∧
    (∀ ns, k8sClient.GetNamespace (key.ClusterNamespace customObject) = .ok ns →
      ns.Status.Phase ≠ "Terminating" →
      GetCurrentState k8sClient ctx (.kvmConfig customObject) =
        (ctx, .namespacePtr (some ns), none)) ∧
    (∀ err, k8sClient.GetNamespace (key.ClusterNamespace customObject) = .error err →
      apierrors.IsNotFound err = true →
      (GetCurrentState k8sClient ctx (.kvmConfig customObject)).1 = ctx) := by
  refine ⟨?_, ?_, ?_⟩
  · intro ns hget hphase
    simp [GetCurrentState, key.ToCustomObject, hget, cancelIfTerminating, hphase,
      reconciliationcanceledcontext.IsCanceled, reconciliationcanceledcontext.SetCanceled]
  · intro ns hget hphase
    simp [GetCurrentState, key.ToCustomObject, hget, cancelIfTerminating, hphase]
  · intro err hget hnf
    simp [GetCurrentState, key.ToCustomObject, hget, cancelIfTerminating, hnf]

/-- A terminating namespace cancels a pass that was not canceled; an active namespace and
an absent namespace leave the pass uncanceled, and the active namespace is returned. -/
theorem GetCurrentState_cancels_iff_terminating_witness :
    (GetCurrentState (clientAnswering (.ok ⟨"al9qy", ⟨"Terminating"⟩⟩)) ctxUpdateAllowed
        (.kvmConfig (sampleCluster "2.0.1")) = (⟨true, true⟩, .nil, none) ∧
      reconciliationcanceledcontext.IsCanceled
        (GetCurrentState (clientAnswering (.ok ⟨"al9qy", ⟨"Terminating"⟩⟩)) ctxUpdateAllowed
          (.kvmConfig (sampleCluster "2.0.1"))).1 = true) ∧
    GetCurrentState (clientAnswering (.ok ⟨"al9qy", ⟨"Active"⟩⟩)) ctxUpdateAllowed
        (.kvmConfig (sampleCluster "2.0.1")) =
      (ctxUpdateAllowed, .namespacePtr (some ⟨"al9qy", ⟨"Active"⟩⟩), none) ∧
    (GetCurrentState (clientAnswering (.error .apiNotFound)) ctxUpdateAllowed
        (.kvmConfig (sampleCluster "2.0.1"))).1 = ctxUpdateAllowed :=
  ⟨(GetCurrentState_cancels_iff_terminating
      (clientAnswering (.ok ⟨"al9qy", ⟨"Terminating"⟩⟩)) ctxUpdateAllowed
      (sampleCluster "2.0.1")).1 ⟨"al9qy", ⟨"Terminating"⟩⟩ rfl rfl,
    (GetCurrentState_cancels_iff_terminating
      (clientAnswering (.ok ⟨"al9qy", ⟨"Active"⟩⟩)) ctxUpdateAllowed
      (sampleCluster "2.0.1")).2.1 ⟨"al9qy", ⟨"Active"⟩⟩ rfl (by decide),
    (GetCurrentState_cancels_iff_terminating
      (clientAnswering (.error .apiNotFound)) ctxUpdateAllowed
      (sampleCluster "2.0.1")).2.2 .apiNotFound rfl rfl⟩

/-- C7: `GetCurrentState` treats absence as a valid state.  When the lookup of the
namespace fails with NotFound it returns the nil namespace pointer and no error.  It
returns an error exactly when the object is not a custom object or the lookup fails with
an error other than NotFound, and then the returned state is nil. -/
theorem GetCurrentState_error_iff (k8sClient : K8sClient) (ctx : Ctx) (obj : Untyped) :
    (∀ customObject err, key.ToCustomObject obj = .ok customObject →
      k8sClient.GetNamespace (key.ClusterNamespace customObject) = .error err →
      apierrors.IsNotFound err = true →
      (GetCurrentState k8sClient ctx obj).2 = (.namespacePtr none, none)) ∧
    ((GetCurrentState k8sClient ctx obj).2.2 ≠ none ↔
      ((∃ err, key.ToCustomObject obj = .error err) ∨
        ∃ customObject err, key.ToCustomObject obj = .ok customObject ∧
          k8sClient.GetNamespace (key.ClusterNamespace customObject) = .error err ∧
          apierrors.IsNotFound err = false)) ∧
    ((GetCurrentState k8sClient ctx obj).2.2 ≠ none →
      (GetCurrentState k8sClient ctx obj).2.1 = .nil) := by
  unfold GetCurrentState
  cases hobj : key.ToCustomObject obj with
  | error e => simp
  | ok customObject =>
    dsimp only
    cases hget : k8sClient.GetNamespace (key.ClusterNamespace customObject) with
    | error e =>
      dsimp only
      cases hnf : apierrors.IsNotFound e with
      | true =>
        refine ⟨?_, ?_, ?_⟩
        · intro c err hc hg _
          cases hc
          simp [cancelIfTerminating]
        · simp only [if_true, cancelIfTerminating, ne_eq, not_true_eq_false, false_iff]
          rintro (⟨err, herr⟩ | ⟨c, err, hc, hg, hfalse⟩)
          · cases herr
          · cases hc
            rw [hget] at hg
            cases hg
            rw [hnf] at hfalse
            cases hfalse
        · simp [cancelIfTerminating]
      | false =>
        refine ⟨?_, ?_, ?_⟩
        · intro c err hc hg htrue
          cases hc
          rw [hget] at hg
          cases hg
          rw [hnf] at htrue
          cases htrue
        · simp only [Bool.false_eq_true, if_false, ne_eq, reduceCtorEq, not_false_eq_true,
            true_iff]
          exact Or.inr ⟨customObject, e, rfl, hget, hnf⟩
        · simp
    | ok manifest =>
      dsimp only
      have hnone : (cancelIfTerminating ctx (some manifest)).2.2 = none := by
        simp only [cancelIfTerminating]
        split <;> rfl
      refine ⟨?_, ?_, ?_⟩
      · intro c err hc hg _
        cases hc
        rw [hget] at hg
        cases hg
      · simp only [hnone, ne_eq, not_true_eq_false, false_iff]
        rintro (⟨err, herr⟩ | ⟨c, err, hc, hg, _⟩)
        · cases herr
        · cases hc
          rw [hget] at hg
          cases hg
      · simp [hnone]

/-- An absent namespace is the nil pointer without error; a failing API and an object of
another type give an error next to the nil state. -/
theorem GetCurrentState_error_iff_witness :
    (GetCurrentState (clientAnswering (.error .apiNotFound)) ctxUpdateAllowed
        (.kvmConfig (sampleCluster "2.0.1"))).2 = (.namespacePtr none, none) ∧
    GetCurrentState (clientAnswering (.error (.other "timeout"))) ctxUpdateAllowed
        (.kvmConfig (sampleCluster "2.0.1")) =
      (ctxUpdateAllowed, .nil, some (.other "timeout")) ∧
    GetCurrentState (clientAnswering (.error .apiNotFound)) ctxUpdateAllowed .other =
      (ctxUpdateAllowed, .nil, some .wrongTypeError) :=
  ⟨(GetCurrentState_error_iff (clientAnswering (.error .apiNotFound)) ctxUpdateAllowed
      (.kvmConfig (sampleCluster "2.0.1"))).1 (sampleCluster "2.0.1") .apiNotFound rfl rfl rfl,
    rfl, rfl⟩

/-! ## The applicability predicate -/

/-- C8: `handlesFunc` returns true exactly for a custom object whose recorded
version-bundle version is equal, as a string, to the version of the compiled bundle; for
the bundle of `VersionBundle` that version is "2.0.1", and strings that only resemble it
(surrounding blanks, a prefix, another patch level, a leading zero) are not handled, nor
is an object that is not a custom object. -/
theorem handlesFunc_iff_version_equal (bundle : Bundle) (obj : Untyped) :
    (handlesFunc bundle obj = true ↔
      ∃ customObject, obj = .kvmConfig customObject ∧
        key.VersionBundleVersion customObject = bundle.Version) ∧
    (handlesFunc VersionBundle obj = true ↔
      ∃ customObject, obj = .kvmConfig customObject ∧
        key.VersionBundleVersion customObject = "2.0.1") ∧
    handlesFunc VersionBundle (.kvmConfig (sampleCluster "2.0.1")) = true ∧
    handlesFunc VersionBundle (.kvmConfig (sampleCluster "2.0.1 ")) = false ∧
    handlesFunc VersionBundle (.kvmConfig (sampleCluster "v2.0.1")) = false ∧
    handlesFunc VersionBundle (.kvmConfig (sampleCluster "2.0.2")) = false ∧
    handlesFunc VersionBundle (.kvmConfig (sampleCluster "2.0.01")) = false ∧
    handlesFunc bundle .nil = false ∧
    handlesFunc bundle .other = false ∧
    handlesFunc bundle (.deployments []) = false := by
  have hiff : ∀ b : Bundle, handlesFunc b obj = true ↔
      ∃ customObject, obj = .kvmConfig customObject ∧
        key.VersionBundleVersion customObject = b.Version := by
    intro b
    cases obj <;> simp [handlesFunc, key.ToCustomObject]
  exact ⟨hiff bundle, hiff VersionBundle, by decide, by decide, by decide, by decide,
    by decide, rfl, rfl, rfl⟩

/-! ## Applying an empty update -/

/-- C9: for every custom object, `ApplyUpdateChange` called with an empty list of
deployments, or with the nil update that `newUpdateChange` returns, issues no `Update`
call against the API and returns no error, whatever the API would answer. -/
theorem ApplyUpdateChange_empty_no_calls (k8sClient : K8sClient) (ctx : Ctx)
    (customObject : KVMConfig) :
    ApplyUpdateChange k8sClient ctx (.kvmConfig customObject) (.deployments []) =
      ([], none) ∧
    ApplyUpdateChange k8sClient ctx (.kvmConfig customObject) .nil = ([], none) := by
  constructor <;> simp [ApplyUpdateChange, key.ToCustomObject, toDeployments]

/-! ## Facts about the constructors of the resource set -/

theorem validated_ok {α : Type} {verdict : Option Error} {value x : α}
    (h : validated verdict value = .ok x) : x = value := by
  cases verdict with
  | none => simpa [validated] using h.symm
  | some err => simp [validated] at h

/-- The retry wrapper decorates every resource of the list, in place. -/
theorem retryresource_Wrap_ok (v : Validation) (config : RetryWrapConfig) :
    ∀ (resources wrapped : List Resource),
      retryresource.Wrap v resources config = .ok wrapped →
      wrapped = resources.map (Resource.retry (config.BackOffFactory ()) config.Logger) := by
  intro resources
  induction resources with
  | nil =>
    intro wrapped h
    simp only [retryresource.Wrap, Except.ok.injEq] at h
    simp [← h]
  | cons r rest ih =>
    intro wrapped h
    rw [retryresource.Wrap] at h
    split at h
    · cases h
    · rename_i retryResource hnew
      split at h
      · cases h
      · rename_i tail htail
        cases h
        rw [validated_ok hnew, ih tail htail, List.map_cons]

/-- The metrics wrapper decorates every resource of the list, in place. -/
theorem metricsresource_Wrap_ok (v : Validation) (config : MetricsWrapConfig) :
    ∀ (resources wrapped : List Resource),
      metricsresource.Wrap v resources config = .ok wrapped →
      wrapped = resources.map (Resource.metrics config.Name) := by
  intro resources
  induction resources with
  | nil =>
    intro wrapped h
    simp only [metricsresource.Wrap, Except.ok.injEq] at h
    simp [← h]
  | cons r rest ih =>
    intro wrapped h
    rw [metricsresource.Wrap] at h
    split at h
    · cases h
    · rename_i metricsResource hnew
      split at h
      · cases h
      · rename_i tail htail
        cases h
        rw [validated_ok hnew, ih tail htail, List.map_cons]

/-- A resource of a package, once built, is the CRUD resource over the operations of that
package. -/
theorem toCRUDResource_New_ok (v : Validation) (pkg : Package) (c : OpsConfig)
    (logger : Option Logger) (ops : Ops) (r : Resource)
    (hops : Package.New v pkg c = .ok ops) (hr : toCRUDResource v logger ops = .ok r) :
    r = .crud logger ⟨pkg, c⟩ := by
  rw [validated_ok hr, validated_ok hops]

/-- C10: whenever `NewResourceSet` succeeds, the resources handed to the resource set are
the CRUD resources of namespace, service account, config map, deployment, ingress, pvc and
service, in this order, each wrapped by the retry decorator and then by the metrics
decorator: they are exactly seven, and the wrapping keeps their number and order. -/
theorem NewResourceSet_resources_in_order (v : Validation) (bundle : Bundle)
    (config : ResourceSetConfig) (rs : ResourceSet)
    (h : NewResourceSet v bundle config = .ok rs) :
    ∃ base : List Resource,
      (∀ r ∈ base, ∃ ops, r = Resource.crud config.Logger ops) ∧
      base.map Resource.package = resourceOrder ∧
      rs.Resources = base.map (fun r => Resource.metrics config.Name
        (Resource.retry (BackOff.withMaxTries BackOff.exponential ResourceRetries)
          config.Logger r)) ∧
      rs.Resources.map Resource.package = resourceOrder ∧
      rs.Resources.length = 7 := by
  simp only [NewResourceSet, bind, Except.bind, pure, Except.pure, throw, throwThe,
    MonadExceptOf.throw] at h
  iterate 5 (split at h; · cases h)
  split at h; · cases h
  rename_i cloudConfig hcloud
  split at h; · cases h
  rename_i ops1 hops1
  split at h; · cases h
  rename_i r1 hr1
  split at h; · cases h
  rename_i ops2 hops2
  split at h; · cases h
  rename_i r2 hr2
  split at h; · cases h
  rename_i ops3 hops3
  split at h; · cases h
  rename_i r3 hr3
  split at h; · cases h
  rename_i ops4 hops4
  split at h; · cases h
  rename_i r4 hr4
  split at h; · cases h
  rename_i ops5 hops5
  split at h; · cases h
  rename_i r5 hr5
  split at h; · cases h
  rename_i ops6 hops6
  split at h; · cases h
  rename_i r6 hr6
  split at h; · cases h
  rename_i ops7 hops7
  split at h; · cases h
  rename_i r7 hr7
  split at h; · cases h
  rename_i retried hretried
  split at h; · cases h
  rename_i measured hmeasured
  have hrs := validated_ok h
  have h1 := toCRUDResource_New_ok v _ _ _ _ _ hops1 hr1
  have h2 := toCRUDResource_New_ok v _ _ _ _ _ hops2 hr2
  have h3 := toCRUDResource_New_ok v _ _ _ _ _ hops3 hr3
  have h4 := toCRUDResource_New_ok v _ _ _ _ _ hops4 hr4
  have h5 := toCRUDResource_New_ok v _ _ _ _ _ hops5 hr5
  have h6 := toCRUDResource_New_ok v _ _ _ _ _ hops6 hr6
  have h7 := toCRUDResource_New_ok v _ _ _ _ _ hops7 hr7
  have hret := retryresource_Wrap_ok v _ _ _ hretried
  have hmet := metricsresource_Wrap_ok v _ _ _ hmeasured
  refine ⟨[r1, r2, r3, r4, r5, r6, r7], ?_, ?_, ?_, ?_, ?_⟩
  · intro r hr
    simp only [List.mem_cons, List.mem_singleton, List.not_mem_nil, or_false] at hr
    rcases hr with rfl | rfl | rfl | rfl | rfl | rfl | rfl
    · exact ⟨_, h1⟩
    · exact ⟨_, h2⟩
    · exact ⟨_, h3⟩
    · exact ⟨_, h4⟩
    · exact ⟨_, h5⟩
    · exact ⟨_, h6⟩
    · exact ⟨_, h7⟩
  · simp [h1, h2, h3, h4, h5, h6, h7, Resource.package, resourceOrder]
  · rw [hrs, hmet, hret]
    simp
  · rw [hrs, hmet, hret]
    simp [h1, h2, h3, h4, h5, h6, h7, Resource.package, resourceOrder]
  · rw [hrs, hmet, hret]
    simp

/-- A complete configuration that every constructor accepts yields a resource set whose
seven resources run, in order, the packages of the fixed ordering. -/
theorem NewResourceSet_resources_in_order_witness :
    ∃ rs, NewResourceSet acceptAll VersionBundle (sampleConfig true) = .ok rs ∧
      ∃ base : List Resource,
        (∀ r ∈ base, ∃ ops, r = Resource.crud (sampleConfig true).Logger ops) ∧
        base.map Resource.package = resourceOrder ∧
        rs.Resources = base.map (fun r => Resource.metrics (sampleConfig true).Name
          (Resource.retry (BackOff.withMaxTries BackOff.exponential ResourceRetries)
            (sampleConfig true).Logger r)) ∧
        rs.Resources.map Resource.package = resourceOrder ∧
        rs.Resources.length = 7 :=
  ⟨_, rfl, NewResourceSet_resources_in_order acceptAll VersionBundle (sampleConfig true) _ rfl⟩

/-! ## The context initializer -/

/-- C11: `initCtxFunc` sets the updates-allowed flag from the static configuration.
Starting from a pass context in which updates are not yet allowed, updates are allowed
after the initialization if and only if `config.GuestUpdateEnabled` is true; the
initializer returns no error and leaves the cancellation flag as it was. -/
theorem initCtxFunc_allows_iff_enabled (config : ResourceSetConfig) (ctx : Ctx)
    (obj : Untyped) (hfresh : updateallowedcontext.IsUpdateAllowed ctx = false) :
    (updateallowedcontext.IsUpdateAllowed (initCtxFunc config ctx obj).1 = true ↔
      config.GuestUpdateEnabled = true) ∧
    (initCtxFunc config ctx obj).2 = none ∧
    reconciliationcanceledcontext.IsCanceled (initCtxFunc config ctx obj).1 =
      reconciliationcanceledcontext.IsCanceled ctx := by
  unfold initCtxFunc
  cases henabled : config.GuestUpdateEnabled with
  | true =>
    simp [updateallowedcontext.IsUpdateAllowed, updateallowedcontext.SetUpdateAllowed,
      reconciliationcanceledcontext.IsCanceled]
  | false =>
    simp [hfresh]

/-- With guest updates enabled a fresh context allows updates after the initialization;
the statement at a configuration that enables them. -/
theorem initCtxFunc_allows_iff_enabled_witness :
    updateallowedcontext.IsUpdateAllowed ctxUpdateForbidden = false ∧
    ((updateallowedcontext.IsUpdateAllowed
        (initCtxFunc (sampleConfig true) ctxUpdateForbidden .nil).1 = true ↔
      (sampleConfig true).GuestUpdateEnabled = true) ∧
    (initCtxFunc (sampleConfig true) ctxUpdateForbidden .nil).2 = none ∧
    reconciliationcanceledcontext.IsCanceled
        (initCtxFunc (sampleConfig true) ctxUpdateForbidden .nil).1 =
      reconciliationcanceledcontext.IsCanceled ctxUpdateForbidden) :=
  ⟨rfl, initCtxFunc_allows_iff_enabled (sampleConfig true) ctxUpdateForbidden .nil rfl⟩

/-! ## The update gate on a converged cluster -/

/-- C13: when every current deployment either has no same-named desired deployment or is
reported unmodified against the one `getDeploymentByName` locates, `newUpdateChange`
returns the nil update and no error, for every pass context and whether or not the
current deployments are stable, hence in particular when updates are allowed and all of
them are stable; for the empty current list it does so whatever the desired list is. -/
theorem newUpdateChange_converged_returns_nil
    (isDeploymentModified : Deployment → Deployment → Bool)
    (ctx : Ctx) (obj : Untyped) (current desired : List Deployment)
    (hunmodified : ∀ c ∈ current, ∀ d, getDeploymentByName desired c.Name = .ok d →
      isDeploymentModified d c = false) :
    newUpdateChange isDeploymentModified ctx obj (.deployments current)
        (.deployments desired) = (.nil, none) ∧
    newUpdateChange isDeploymentModified ctx obj (.deployments [])
        (.deployments desired) = (.nil, none) := by
  have hscan : selectUpdate isDeploymentModified desired current = (.nil, none) := by
    have := selectUpdate_append_of_unmodified isDeploymentModified desired current []
      hunmodified
    rw [List.append_nil] at this
    rw [this]
    rfl
  constructor
  · simp only [newUpdateChange, toDeployments, hscan]
    split
    · split <;> rfl
    · rfl
  · simp only [newUpdateChange, toDeployments, anyReplicasDown, selectUpdate]
    split
    · simp
    · rfl

/-- A pass over a converged cluster: `worker-1` and `worker-2` equal their desired
deployments, `worker-4` has none; nothing is selected. -/
theorem newUpdateChange_converged_returns_nil_witness :
    newUpdateChange templateDiffers ctxUpdateAllowed .nil
        (.deployments [worker "worker-1" "a" 1 1 1 1, worker "worker-2" "a" 1 1 1 1,
          worker "worker-4" "a" 1 1 1 1])
        (.deployments [worker "worker-1" "a" 0 0 0 0, worker "worker-2" "a" 0 0 0 0]) =
      (.nil, none) ∧
    newUpdateChange templateDiffers ctxUpdateAllowed .nil (.deployments [])
        (.deployments [worker "worker-1" "a" 0 0 0 0, worker "worker-2" "a" 0 0 0 0]) =
      (.nil, none) :=
  newUpdateChange_converged_returns_nil templateDiffers ctxUpdateAllowed .nil
    [worker "worker-1" "a" 1 1 1 1, worker "worker-2" "a" 1 1 1 1,
      worker "worker-4" "a" 1 1 1 1]
    [worker "worker-1" "a" 0 0 0 0, worker "worker-2" "a" 0 0 0 0]
    (by
      intro c hc d hd
      simp only [List.mem_cons, List.mem_singleton, List.not_mem_nil, or_false] at hc
      rcases hc with rfl | rfl | rfl
      · have hlookup : getDeploymentByName
            [worker "worker-1" "a" 0 0 0 0, worker "worker-2" "a" 0 0 0 0]
            (worker "worker-1" "a" 1 1 1 1).Name = .ok (worker "worker-1" "a" 0 0 0 0) := rfl
        rw [hlookup] at hd
        cases hd
        decide
      · have hlookup : getDeploymentByName
            [worker "worker-1" "a" 0 0 0 0, worker "worker-2" "a" 0 0 0 0]
            (worker "worker-2" "a" 1 1 1 1).Name = .ok (worker "worker-2" "a" 0 0 0 0) := rfl
        rw [hlookup] at hd
        cases hd
        decide
      · have hlookup : getDeploymentByName
            [worker "worker-1" "a" 0 0 0 0, worker "worker-2" "a" 0 0 0 0]
            (worker "worker-4" "a" 1 1 1 1).Name = .error .notFoundError := rfl
        rw [hlookup] at hd
        cases hd)

/-! ## The retry ceiling of the resource set -/

/-- What a successful `NewResourceSet` returns: the two closures, the logger, and the seven
CRUD resources decorated with retry and metrics. -/
theorem NewResourceSet_ok_shape (v : Validation) (bundle : Bundle)
    (config : ResourceSetConfig) (rs : ResourceSet)
    (h : NewResourceSet v bundle config = .ok rs) :
    ∃ base : List Resource,
      (∀ r ∈ base, ∃ ops, r = Resource.crud config.Logger ops) ∧
      base.map Resource.package = resourceOrder ∧
      rs.Handles = handlesFunc bundle ∧
      rs.InitCtx = initCtxFunc config ∧
      rs.Logger = config.Logger ∧
      rs.Resources = base.map (fun r => Resource.metrics config.Name
        (Resource.retry (BackOff.withMaxTries BackOff.exponential ResourceRetries)
          config.Logger r)) := by
  simp only [NewResourceSet, bind, Except.bind, pure, Except.pure, throw, throwThe,
    MonadExceptOf.throw] at h
  iterate 5 (split at h; · cases h)
  split at h; · cases h
  rename_i cloudConfig hcloud
  split at h; · cases h
  rename_i ops1 hops1
  split at h; · cases h
  rename_i r1 hr1
  split at h; · cases h
  rename_i ops2 hops2
  split at h; · cases h
  rename_i r2 hr2
  split at h; · cases h
  rename_i ops3 hops3
  split at h; · cases h
  rename_i r3 hr3
  split at h; · cases h
  rename_i ops4 hops4
  split at h; · cases h
  rename_i r4 hr4
  split at h; · cases h
  rename_i ops5 hops5
  split at h; · cases h
  rename_i r5 hr5
  split at h; · cases h
  rename_i ops6 hops6
  split at h; · cases h
  rename_i r6 hr6
  split at h; · cases h
  rename_i ops7 hops7
  split at h; · cases h
  rename_i r7 hr7
  split at h; · cases h
  rename_i retried hretried
  split at h; · cases h
  rename_i measured hmeasured
  have hrs := validated_ok h
  have h1 := toCRUDResource_New_ok v _ _ _ _ _ hops1 hr1
  have h2 := toCRUDResource_New_ok v _ _ _ _ _ hops2 hr2
  have h3 := toCRUDResource_New_ok v _ _ _ _ _ hops3 hr3
  have h4 := toCRUDResource_New_ok v _ _ _ _ _ hops4 hr4
  have h5 := toCRUDResource_New_ok v _ _ _ _ _ hops5 hr5
  have h6 := toCRUDResource_New_ok v _ _ _ _ _ hops6 hr6
  have h7 := toCRUDResource_New_ok v _ _ _ _ _ hops7 hr7
  have hret := retryresource_Wrap_ok v _ _ _ hretried
  have hmet := metricsresource_Wrap_ok v _ _ _ hmeasured
  refine ⟨[r1, r2, r3, r4, r5, r6, r7], ?_, ?_, ?_, ?_, ?_, ?_⟩
  · intro r hr
    simp only [List.mem_cons, List.mem_singleton, List.not_mem_nil, or_false] at hr
    rcases hr with rfl | rfl | rfl | rfl | rfl | rfl | rfl
    · exact ⟨_, h1⟩
    · exact ⟨_, h2⟩
    · exact ⟨_, h3⟩
    · exact ⟨_, h4⟩
    · exact ⟨_, h5⟩
    · exact ⟨_, h6⟩
    · exact ⟨_, h7⟩
  · simp [h1, h2, h3, h4, h5, h6, h7, Resource.package, resourceOrder]
  · rw [hrs]
  · rw [hrs]
  · rw [hrs]
  · rw [hrs, hmet, hret]
    simp

/-- The retry loop around a CRUD operation under `backOffTries` over the exponential
back-off, with `left` back-offs still to hand out: the operation is called at least once
and at most `left + 1` times more, and exactly `left + 1` times more, returning the error
of the last call, when it fails every time and the clock never stops the exponential
back-off. -/
theorem retryNotifyLoop_backOffTries (expired : Nat → Bool) (operation : Nat → Option Error)
    (maxTries : Nat) (hmax : 0 < maxTries) :
    ∀ (left fuel consulted numTries made : Nat), numTries + left = maxTries → left < fuel →
      ∃ attempts err,
        retryNotifyLoop expired (fun m => some (m + 1, operation m)) fuel
          (.backOffTries (.exponentialBackOff consulted) maxTries numTries) made =
          some (attempts, err) ∧
        made + 1 ≤ attempts ∧ attempts ≤ made + left + 1 ∧
        ((∀ i, operation i ≠ none) → (∀ i, expired i = false) →
          attempts = made + left + 1 ∧ err = operation (made + left)) := by
  intro left
  induction left with
  | zero =>
    intro fuel consulted numTries made hnum hfuel
    obtain ⟨fuel, rfl⟩ : ∃ f, fuel = f + 1 := ⟨fuel - 1, by omega⟩
    have hstop : maxTries ≤ numTries := by omega
    cases hop : operation made with
    | none =>
      refine ⟨made + 1, none, by simp [retryNotifyLoop, hop], by omega, by omega, ?_⟩
      intro hfail _
      exact absurd hop (hfail made)
    | some e =>
      refine ⟨made + 1, some e, ?_, by omega, by omega, ?_⟩
      · simp [retryNotifyLoop, hop, BackOffState.NextBackOff, hmax, hstop]
      · intro _ _
        exact ⟨rfl, by simp [hop]⟩
  | succ left ih =>
    intro fuel consulted numTries made hnum hfuel
    obtain ⟨fuel, rfl⟩ : ∃ f, fuel = f + 1 := ⟨fuel - 1, by omega⟩
    have hgo : ¬ maxTries ≤ numTries := by omega
    cases hop : operation made with
    | none =>
      refine ⟨made + 1, none, by simp [retryNotifyLoop, hop], by omega, by omega, ?_⟩
      intro hfail _
      exact absurd hop (hfail made)
    | some e =>
      cases hexp : expired consulted with
      | true =>
        refine ⟨made + 1, some e, ?_, by omega, by omega, ?_⟩
        · simp [retryNotifyLoop, hop, BackOffState.NextBackOff, hmax, hgo, hexp]
        · intro _ hclock
          rw [hclock consulted] at hexp
          cases hexp
      | false =>
        obtain ⟨attempts, err, hrun, hlow, hhigh, hall⟩ :=
          ih fuel (consulted + 1) (numTries + 1) (made + 1) (by omega) (by omega)
        refine ⟨attempts, err, ?_, by omega, by omega, ?_⟩
        · rw [← hrun]
          simp [retryNotifyLoop, hop, BackOffState.NextBackOff, hmax, hgo, hexp]
        · intro hfail hclock
          obtain ⟨hattempts, herr⟩ := hall hfail hclock
          refine ⟨by omega, ?_⟩
          rw [herr]
          congr 1
          omega

/-- C12, as amended: whenever `NewResourceSet` succeeds, `ResourceRetries` is 3 and every
resource of the resource set is the metrics decorator around the retry decorator, over a
CRUD resource, whose back-off is the exponential back-off under
`WithMaxTries(_, ResourceRetries)`.  The bound counts the back-offs, that is the retries:
with enough fuel one call of an operation on such a resource returns after at least one
and at most four calls of the underlying operation, and after exactly four, with the
error of the fourth, when the operation fails every time and the clock never stops the
exponential back-off. -/
theorem NewResourceSet_retry_at_most_four_attempts (v : Validation) (bundle : Bundle)
    (config : ResourceSetConfig) (rs : ResourceSet)
    (h : NewResourceSet v bundle config = .ok rs) :
    ResourceRetries = 3 ∧
    ∀ r ∈ rs.Resources,
      (∃ ops, r = Resource.metrics config.Name
        (Resource.retry (BackOff.withMaxTries BackOff.exponential ResourceRetries)
          config.Logger (Resource.crud config.Logger ops))) ∧
      ∀ (expired : Nat → Bool) (operation : Nat → Option Error) (fuel : Nat), 4 ≤ fuel →
        ∃ attempts err,
          Resource.run expired operation fuel r 0 = some (attempts, err) ∧
          1 ≤ attempts ∧ attempts ≤ 4 ∧
          ((∀ i, operation i ≠ none) → (∀ i, expired i = false) →
            attempts = 4 ∧ err = operation 3) := by
  refine ⟨rfl, ?_⟩
  obtain ⟨base, hcrud, _, _, _, _, hres⟩ := NewResourceSet_ok_shape v bundle config rs h
  intro r hr
  rw [hres, List.mem_map] at hr
  obtain ⟨inner, hinner, rfl⟩ := hr
  obtain ⟨ops, rfl⟩ := hcrud inner hinner
  refine ⟨⟨ops, rfl⟩, ?_⟩
  intro expired operation fuel hfuel
  obtain ⟨attempts, err, hrun, hlow, hhigh, hall⟩ :=
    retryNotifyLoop_backOffTries expired operation 3 (by omega) 3 fuel 0 0 0 rfl (by omega)
  refine ⟨attempts, err, ?_, by omega, by omega, ?_⟩
  · rw [← hrun]
    simp [Resource.run, BackOff.Reset, ResourceRetries]
  · intro hfail hclock
    simpa using hall hfail hclock

/-- The resource set of a complete configuration: every resource carries the retry
decorator, and an operation is called at most four times; the statement at that resource
set. -/
theorem NewResourceSet_retry_at_most_four_attempts_witness :
    ∃ rs, NewResourceSet acceptAll VersionBundle (sampleConfig true) = .ok rs ∧
      rs.Resources.length = 7 ∧
      ResourceRetries = 3 ∧
      ∀ r ∈ rs.Resources,
        (∃ ops, r = Resource.metrics (sampleConfig true).Name
          (Resource.retry (BackOff.withMaxTries BackOff.exponential ResourceRetries)
            (sampleConfig true).Logger (Resource.crud (sampleConfig true).Logger ops))) ∧
        ∀ (expired : Nat → Bool) (operation : Nat → Option Error) (fuel : Nat), 4 ≤ fuel →
          ∃ attempts err,
            Resource.run expired operation fuel r 0 = some (attempts, err) ∧
            1 ≤ attempts ∧ attempts ≤ 4 ∧
            ((∀ i, operation i ≠ none) → (∀ i, expired i = false) →
              attempts = 4 ∧ err = operation 3) :=
  ⟨_, rfl, rfl,
    NewResourceSet_retry_at_most_four_attempts acceptAll VersionBundle (sampleConfig true) _
      rfl⟩

/-- C12, as stated, fails: on every resource of the resource set of a complete
configuration, an operation that fails with a conflict every time is called four times in
one pass, not at most three; an operation that fails three times and then succeeds is
called four times and succeeds, and one that fails twice is called three times. -/
theorem NewResourceSet_three_attempts_counterexample :
    ∃ rs, NewResourceSet acceptAll VersionBundle (sampleConfig true) = .ok rs ∧
      ∀ r ∈ rs.Resources,
        Resource.run neverExpired alwaysConflict 4 r 0 =
          some (4, some (.other "conflict")) ∧
        ¬ (∀ attempts err, Resource.run neverExpired alwaysConflict 4 r 0 =
            some (attempts, err) → attempts ≤ 3) ∧
        Resource.run neverExpired (conflictsThenSucceeds 3) 4 r 0 = some (4, none) ∧
        Resource.run neverExpired (conflictsThenSucceeds 2) 4 r 0 = some (3, none) := by
  refine ⟨_, rfl, ?_⟩
  intro r hr
  have hfour : Resource.run neverExpired alwaysConflict 4 r 0 =
      some (4, some (.other "conflict")) ∧
      Resource.run neverExpired (conflictsThenSucceeds 3) 4 r 0 = some (4, none) ∧
      Resource.run neverExpired (conflictsThenSucceeds 2) 4 r 0 = some (3, none) := by
    simp only [List.mem_cons, List.mem_singleton, List.not_mem_nil, or_false] at hr
    rcases hr with rfl | rfl | rfl | rfl | rfl | rfl | rfl <;> exact ⟨rfl, rfl, rfl⟩
  refine ⟨hfour.1, ?_, hfour.2.1, hfour.2.2⟩
  intro hbound
  have := hbound 4 _ hfour.1
  omega

/-! ## The worker deployments -/

/-- When the capabilities of all remaining worker nodes exist and parse, the loop appends
one deployment per remaining node, in order, and returns no error. -/
theorem newWorkerDeploymentsLoop_ok (k : WorkerKey) (customObject : KVMConfig)
    (replicas : Int) :
    ∀ (workers : List ClusterNode) (i : Nat) (deployments : List Deployment),
      i + workers.length ≤ customObject.Spec.KVM.Workers.length →
      (∀ j capabilities, i ≤ j → j < i + workers.length →
        customObject.Spec.KVM.Workers[j]? = some capabilities →
        (∃ q, k.CPUQuantity capabilities = .ok q) ∧
          ∃ q, k.MemoryQuantity capabilities = .ok q) →
      newWorkerDeploymentsLoop k customObject replicas workers i deployments =
        some (deployments ++
          workers.map (fun w => newWorkerDeployment k customObject w replicas), none) := by
  intro workers
  induction workers with
  | nil =>
    intro i deployments _ _
    simp [newWorkerDeploymentsLoop]
  | cons w rest ih =>
    intro i deployments hlen hparse
    rw [List.length_cons] at hlen
    have hi : i < customObject.Spec.KVM.Workers.length := by omega
    have hget : customObject.Spec.KVM.Workers[i]? =
        some (customObject.Spec.KVM.Workers[i]) := List.getElem?_eq_getElem hi
    obtain ⟨⟨qc, hqc⟩, ⟨qm, hqm⟩⟩ :=
      hparse i _ (Nat.le_refl i) (by rw [List.length_cons]; omega) hget
    rw [newWorkerDeploymentsLoop, hget]
    simp only [hqc, hqm]
    rw [ih (i + 1) _ (by omega)
      (fun j capabilities hij hj hcap =>
        hparse j capabilities (by omega) (by rw [List.length_cons]; omega) hcap)]
    simp

/-- When the capabilities of some remaining worker node exist and do not parse, the loop
returns an error and no deployments. -/
theorem newWorkerDeploymentsLoop_error (k : WorkerKey) (customObject : KVMConfig)
    (replicas : Int) :
    ∀ (workers : List ClusterNode) (i : Nat) (deployments : List Deployment)
      (j : Nat) (capabilities : KVMNode),
      i ≤ j → j < i + workers.length →
      customObject.Spec.KVM.Workers[j]? = some capabilities →
      ((∃ e, k.CPUQuantity capabilities = .error e) ∨
        ∃ e, k.MemoryQuantity capabilities = .error e) →
      ∃ err, newWorkerDeploymentsLoop k customObject replicas workers i deployments =
        some ([], some err) := by
  intro workers
  induction workers with
  | nil =>
    intro i deployments j capabilities hij hj _ _
    simp only [List.length_nil, Nat.add_zero] at hj
    omega
  | cons w rest ih =>
    intro i deployments j capabilities hij hj hcap hfail
    have hjlt : j < customObject.Spec.KVM.Workers.length := by
      rcases Nat.lt_or_ge j customObject.Spec.KVM.Workers.length with hlt | hge
      · exact hlt
      · rw [List.getElem?_eq_none hge] at hcap
        cases hcap
    have hi : i < customObject.Spec.KVM.Workers.length := by omega
    have hget : customObject.Spec.KVM.Workers[i]? =
        some (customObject.Spec.KVM.Workers[i]) := List.getElem?_eq_getElem hi
    rw [newWorkerDeploymentsLoop, hget]
    dsimp only
    cases hqc : k.CPUQuantity (customObject.Spec.KVM.Workers[i]) with
    | error e => exact ⟨e, rfl⟩
    | ok qc =>
      dsimp only
      cases hqm : k.MemoryQuantity (customObject.Spec.KVM.Workers[i]) with
      | error e => exact ⟨e, rfl⟩
      | ok qm =>
        dsimp only
        have hne : i ≠ j := by
          intro heq
          subst heq
          rw [hget] at hcap
          cases hcap
          rcases hfail with ⟨e, he⟩ | ⟨e, he⟩
          · rw [hqc] at he
            cases he
          · rw [hqm] at he
            cases he
        rw [List.length_cons] at hj
        exact ih (i + 1) _ j capabilities (by omega) (by omega) hcap hfail

/-- C14: for a cluster specification whose capability list `Spec.KVM.Workers` is at least
as long as its worker list `Spec.Cluster.Workers` and whose capabilities all parse,
`newWorkerDeployments` stays in range and returns no error and one deployment per worker
node, in the order of the worker list, the deployment of a node named
`key.DeploymentName(key.WorkerID, node.ID)` and having one replica.  When the capabilities
of some worker node, read at the index of the node, fail to parse as a CPU or a memory
quantity, it returns an error and no deployments. -/
theorem newWorkerDeployments_one_per_worker (k : WorkerKey) (customObject : KVMConfig) :
    (customObject.Spec.Cluster.Workers.length ≤ customObject.Spec.KVM.Workers.length →
      (∀ capabilities ∈ customObject.Spec.KVM.Workers,
        (∃ q, k.CPUQuantity capabilities = .ok q) ∧
          ∃ q, k.MemoryQuantity capabilities = .ok q) →
      ∃ ds, newWorkerDeployments k customObject = some (ds, none) ∧
        ds.length = customObject.Spec.Cluster.Workers.length ∧
        ds.map Deployment.Name =
          customObject.Spec.Cluster.Workers.map
            (fun w => k.DeploymentName k.WorkerID w.ID) ∧
        ∀ d ∈ ds, d.Replicas = 1) ∧
    (∀ i capabilities, i < customObject.Spec.Cluster.Workers.length →
      customObject.Spec.KVM.Workers[i]? = some capabilities →
      ((∃ e, k.CPUQuantity capabilities = .error e) ∨
        ∃ e, k.MemoryQuantity capabilities = .error e) →
      ∃ err, newWorkerDeployments k customObject = some ([], some err)) := by
  constructor
  · intro hlen hparse
    refine ⟨customObject.Spec.Cluster.Workers.map
      (fun w => newWorkerDeployment k customObject w 1), ?_, ?_, ?_, ?_⟩
    · rw [newWorkerDeployments, newWorkerDeploymentsLoop_ok k customObject 1 _ 0 []
        (by omega)
        (fun j capabilities _ _ hcap => hparse capabilities (List.getElem?_mem hcap))]
      simp
    · simp
    · simp [newWorkerDeployment]
    · intro d hd
      rw [List.mem_map] at hd
      obtain ⟨w, _, rfl⟩ := hd
      rfl
  · intro i capabilities hi hcap hfail
    exact newWorkerDeploymentsLoop_error k customObject 1 _ 0 [] i capabilities
      (Nat.zero_le i) (by omega) hcap hfail

/-- Two worker nodes with three parsing capability entries give the deployments
`worker-a` and `worker-b`, in this order, with one replica each; two worker nodes of which
the second has an empty memory text give an error and no deployments. -/
theorem newWorkerDeployments_one_per_worker_witness :
    (∃ ds, newWorkerDeployments sampleKey
          (sampleWorkerCluster [⟨"a"⟩, ⟨"b"⟩] [⟨1, "1G"⟩, ⟨2, "2G"⟩, ⟨4, "4G"⟩]) =
        some (ds, none) ∧
      ds.length = 2 ∧
      ds.map Deployment.Name = ["worker-a", "worker-b"] ∧
      ∀ d ∈ ds, d.Replicas = 1) ∧
    (∃ err, newWorkerDeployments sampleKey
        (sampleWorkerCluster [⟨"a"⟩, ⟨"b"⟩] [⟨1, "1G"⟩, ⟨2, ""⟩]) = some ([], some err)) :=
  ⟨(newWorkerDeployments_one_per_worker sampleKey
      (sampleWorkerCluster [⟨"a"⟩, ⟨"b"⟩] [⟨1, "1G"⟩, ⟨2, "2G"⟩, ⟨4, "4G"⟩])).1
      (by decide)
      (by
        intro capabilities hcap
        simp only [sampleWorkerCluster, List.mem_cons, List.mem_singleton,
          List.not_mem_nil, or_false] at hcap
        rcases hcap with rfl | rfl | rfl <;> exact ⟨⟨_, rfl⟩, ⟨_, rfl⟩⟩),
    (newWorkerDeployments_one_per_worker sampleKey
      (sampleWorkerCluster [⟨"a"⟩, ⟨"b"⟩] [⟨1, "1G"⟩, ⟨2, ""⟩])).2 1 ⟨2, ""⟩
      (by decide) rfl (Or.inr ⟨_, rfl⟩)⟩

end KvmOperator
